import Mathlib

/-!
Verification of the transactional geospatial engine of
DedAzaMarks/spbgu-mkn-scalable-storage-2024 (practice 3 engine plus the
practice 2 HTTP storage facade).

The engine source defines a Transaction record, an Engine holding a primary
index (a Go map from feature identifier to feature), a spatial index (an
rtree of bounding-box/feature entries), an LSN counter, a log file and a
checkpoint file, together with the functions applyTransaction,
saveTransaction, check, NewEngine / loadCheckpoint / replayLog and the Run
loop. This file is a shallow embedding of those functions: files are
modelled by the list of records they contain, the Go map by an association
list, the rtree by a list of rectangle/feature entries in insertion order,
and panics and process crashes by Option with value none.
-/

set_option autoImplicit false

namespace GeoStore

/-- Axis-aligned rectangle: the value of Feature.BBox.Bound(), an orb.Bound
with Min and Max points. No arithmetic is done on the coordinates by the
engine (they are only stored and compared), so they are modelled as
integers. The zero rectangle models the zero orb.Bound produced by a nil
BBox. -/
structure Rect where
  minX : Int
  minY : Int
  maxX : Int
  maxY : Int
deriving DecidableEq, Repr

/-- Zero rectangle: orb.Bound zero value, returned by BBox.Bound() when the
BBox field of a feature is nil (geojson.NewFeature leaves it nil, and the
stub features built by the delete handler have it nil as well). -/
def zeroRect : Rect := { minX := 0, minY := 0, maxX := 0, maxY := 0 }

/-- A geojson.Feature as the engine uses it: the ID field asserted to a
string (fid), the value of BBox.Bound() (bbox), and an abstract geometry
content (geom) distinguishing distinct decoded feature objects — the rtree
stores and deletes entries by object identity, and two features decoded
from separate requests are distinct objects even when their fields agree,
which the geom tag makes observable. -/
structure Feature where
  fid : String
  bbox : Rect
  geom : Nat
deriving DecidableEq, Repr

/-- The stub feature built by Storage.deleteHandler in practice2/main.go:
a fresh geojson.Feature whose only populated field is ID (nil geometry and
nil BBox, hence the zero bound). -/
def stubFeature (id : String) : Feature :=
  { fid := id, bbox := zeroRect, geom := 0 }

/-- Transaction from the engine source: Action and Name strings, LSN
counter value, and an optional pointer to a feature (none models a nil
pointer). -/
structure Transaction where
  Action : String
  Name : String
  LSN : Nat
  Feature : Option Feature
deriving DecidableEq, Repr

/-- One line of the log or checkpoint file: either a well-formed serialized
transaction or a malformed (for example truncated) record on which
json.Decoder.Decode fails. -/
inductive LogRecord where
  | entry (txn : Transaction) : LogRecord
  | malformed : LogRecord
deriving DecidableEq, Repr

/-- LSN field of a well-formed log record (0 for a malformed one, which
carries no transaction). -/
def recLSN : LogRecord → Nat
  | .entry t => t.LSN
  | .malformed => 0

/-- Go map assignment m[k] = v on the primary index, modelled on an
association list: overwrite the entry for k when present, otherwise add
one. -/
def mapPut : List (String × Feature) → String → Feature → List (String × Feature)
  | [], k, v => [(k, v)]
  | (k', v') :: rest, k, v =>
      if k' = k then (k, v) :: rest else (k', v') :: mapPut rest k v

/-- Go map lookup m[k] on the primary index. -/
def mapGet : List (String × Feature) → String → Option Feature
  | [], _ => none
  | (k', v') :: rest, k => if k' = k then some v' else mapGet rest k

/-- Go built-in delete(m, k) on the primary index. -/
def mapDel : List (String × Feature) → String → List (String × Feature)
  | [], _ => []
  | (k', v') :: rest, k =>
      if k' = k then mapDel rest k else (k', v') :: mapDel rest k

/-- rtree.Insert(min, max, data): adds one entry; the enumeration order of
the model is insertion order (the rtree scan order is
implementation-defined). -/
def spatialInsert (s : List (Rect × Feature)) (r : Rect) (f : Feature) :
    List (Rect × Feature) :=
  s ++ [(r, f)]

/-- rtree.Delete(min, max, data): removes one entry matching the rectangle
and the data object; a no-op when no entry matches. -/
def spatialDelete : List (Rect × Feature) → Rect → Feature → List (Rect × Feature)
  | [], _, _ => []
  | (r', f') :: rest, r, f =>
      if r' = r ∧ f' = f then rest else (r', f') :: spatialDelete rest r f

/-- rtree.Scan collecting every stored feature in enumeration order, as the
select branch does when building its feature collection. -/
def spatialScan (s : List (Rect × Feature)) : List Feature :=
  s.map (fun q => q.2)

/-- Engine state: the primary index map, the spatial index, the LSN
counter, and the contents of the log file and of the checkpoint file owned
by the engine. -/
structure Engine where
  primary : List (String × Feature)
  spatial : List (Rect × Feature)
  lsn : Nat
  logFile : List LogRecord
  checkpointFile : List LogRecord
deriving DecidableEq, Repr

/-- Result of applyTransaction, whose Go type is ([]byte, error): ok is
(nil, nil), payload is marshaled bytes (modelled by the feature collection
they serialize, in scan order), err is (nil, some error). -/
inductive ApplyResult where
  | ok : ApplyResult
  | payload (features : List Feature) : ApplyResult
  | err (msg : String) : ApplyResult
deriving DecidableEq, Repr

/-- Insert and replace branch of applyTransaction: dereference txn.Feature
(none models a nil pointer, whose dereference panics: result none), store
it in the primary index under its identifier and insert it into the spatial
index under its bound. The previous spatial entry of an already-present
identifier is not deleted. -/
def applyUpsert (e : Engine) (f? : Option Feature) :
    Option (Engine × ApplyResult) :=
  match f? with
  | none => none
  | some f =>
      some ({ e with
                primary := mapPut e.primary f.fid f,
                spatial := spatialInsert e.spatial f.bbox f },
            ApplyResult.ok)

/-- Delete branch of applyTransaction: look the identifier up in the
primary index; when present, delete the stored feature from the spatial
index under its own bound and remove the map entry; when absent, return the
not-found error. A nil txn.Feature panics on the ID dereference (none). -/
def applyDeleteTxn (e : Engine) (f? : Option Feature) :
    Option (Engine × ApplyResult) :=
  match f? with
  | none => none
  | some tf =>
      match mapGet e.primary tf.fid with
      | some f =>
          some ({ e with
                    primary := mapDel e.primary tf.fid,
                    spatial := spatialDelete e.spatial f.bbox f },
                ApplyResult.ok)
      | none =>
          some (e, ApplyResult.err
            ("can\x27t delete by id" ++ tf.fid ++ ": no such enrty"))

/-- Select branch of applyTransaction: scan the spatial index into a
feature collection and return its serialization as payload; the engine
state is untouched. -/
def applySelectTxn (e : Engine) : Option (Engine × ApplyResult) :=
  some (e, ApplyResult.payload (spatialScan e.spatial))

/-- Checkpoint branch of applyTransaction: os.Open(txn.Name + lsn +
checkpointPath) opens a file for reading only; on a fresh path the open
fails and the branch returns its error, and even when the open succeeds the
subsequent Write on the read-only handle fails. Either way the branch
returns an error and leaves the indices, the LSN and both files unchanged,
which is all the development relies on. -/
def applyCheckpointTxn (e : Engine) : Option (Engine × ApplyResult) :=
  some (e, ApplyResult.err "can\x27t open checkpoint file")

/-- Engine.applyTransaction: dispatch on the Action string as the Go switch
does; an unknown action panics (none). -/
def applyTransaction (e : Engine) (t : Transaction) :
    Option (Engine × ApplyResult) :=
  if t.Action = "insert" ∨ t.Action = "replace" then applyUpsert e t.Feature
  else if t.Action = "delete" then applyDeleteTxn e t.Feature
  else if t.Action = "select" then applySelectTxn e
  else if t.Action = "checkpoint" then applyCheckpointTxn e
  else none

/-- Engine.saveTransaction: advance the LSN, stamp it into the transaction,
append the marshaled transaction as one line of the log file, then apply
the transaction (its result, error included, is discarded; only a panic
inside the apply propagates, modelled by none). -/
def saveTransaction (e : Engine) (t : Transaction) : Option Engine :=
  let stamped : Transaction := { t with LSN := e.lsn + 1 }
  let logged : Engine :=
    { e with lsn := e.lsn + 1, logFile := e.logFile ++ [LogRecord.entry stamped] }
  match applyTransaction logged stamped with
  | some (e', _) => some e'
  | none => none

/-- Engine.check: rewrite the checkpoint file with one insert transaction
per feature currently in the primary index (only Action and Feature are
set; Name and LSN keep their zero values), then truncate the log file. -/
def check (e : Engine) : Engine :=
  { e with
      checkpointFile :=
        e.primary.map (fun p =>
          LogRecord.entry { Action := "insert", Name := "", LSN := 0, Feature := some p.2 }),
      logFile := [] }

/-- Decoding loop shared by loadCheckpoint and replayLog: json.Decoder
yields the transactions of the leading well-formed records and breaks at
the first malformed record, discarding it and everything after it. -/
def decodeRecords : List LogRecord → List Transaction
  | [] => []
  | LogRecord.entry t :: rest => t :: decodeRecords rest
  | LogRecord.malformed :: _ => []

/-- Replay a list of decoded transactions in order with applyTransaction,
discarding each result and error as the recovery loops do; a panic inside
an apply crashes recovery (none). -/
def replayAll (e : Engine) : List Transaction → Option Engine
  | [] => some e
  | t :: ts =>
      match applyTransaction e t with
      | some (e', _) => replayAll e' ts
      | none => none

/-- Engine.loadCheckpoint: decode the checkpoint file until the first
malformed record and apply each decoded transaction. -/
def loadCheckpoint (e : Engine) : Option Engine :=
  replayAll e (decodeRecords e.checkpointFile)

/-- Engine.replayLog: decode the log file until the first malformed record
and apply each decoded transaction. -/
def replayLog (e : Engine) : Option Engine :=
  replayAll e (decodeRecords e.logFile)

/-- NewEngine: start from empty indices and LSN zero with the given file
contents, load the checkpoint, then replay the log on top of it. -/
def NewEngine (logContents checkpointContents : List LogRecord) : Option Engine :=
  let e0 : Engine :=
    { primary := [], spatial := [], lsn := 0,
      logFile := logContents, checkpointFile := checkpointContents }
  match loadCheckpoint e0 with
  | some e1 => replayLog e1
  | none => none

/-- Engine state backed by fresh (empty) log and checkpoint files. -/
def emptyEngine : Engine :=
  { primary := [], spatial := [], lsn := 0, logFile := [], checkpointFile := [] }

/-- One drain step of the Engine.Run loop: a received transaction is
processed with applyTransaction alone, its payload and error discarded; a
panic crashes the goroutine (none). -/
def runStep (e : Engine) (t : Transaction) : Option Engine :=
  match applyTransaction e t with
  | some (e', _) => some e'
  | none => none

/-- The Engine.Run loop over a finite list of submitted transactions. -/
def runSeq (e : Engine) : List Transaction → Option Engine
  | [] => some e
  | t :: ts =>
      match runStep e t with
      | some e' => runSeq e' ts
      | none => none

/-- A sequence of transactions processed through saveTransaction. -/
def saveSeq (e : Engine) : List Transaction → Option Engine
  | [] => some e
  | t :: ts =>
      match saveTransaction e t with
      | some e' => saveSeq e' ts
      | none => none

/-- The transaction literal submitted by Storage.checkpointHandler in
practice2/main.go: Action "replace", the storage name, the facade-read LSN,
and a nil Feature. -/
def checkpointHandlerTxn (name : String) (lsn : Nat) : Transaction :=
  { Action := "replace", Name := name, LSN := lsn, Feature := none }

/-- The transaction literal submitted by Storage.deleteHandler in
practice2/main.go for a request carrying identifier id: Action "replace"
(not "delete"), with a stub feature whose only populated field is the
identifier. -/
def deleteHandlerTxn (name : String) (lsn : Nat) (id : String) : Transaction :=
  { Action := "replace", Name := name, LSN := lsn, Feature := some (stubFeature id) }

/-- Mutating transaction whose feature pointer is populated: the shape of
every record that saveTransaction ever writes to the log, and the shape on
which applyTransaction cannot panic. -/
def wellFormedMutating (t : Transaction) : Prop :=
  (t.Action = "insert" ∨ t.Action = "replace" ∨ t.Action = "delete") ∧
    t.Feature.isSome = true

instance (t : Transaction) : Decidable (wellFormedMutating t) := by
  unfold wellFormedMutating; infer_instance

/-- Log records produced by a run of saveTransaction calls starting from
LSN value n: each transaction is stamped with the successor of the running
counter. -/
def stampRecs (n : Nat) : List Transaction → List LogRecord
  | [] => []
  | t :: ts => LogRecord.entry { t with LSN := n + 1 } :: stampRecs (n + 1) ts

/-- Demo feature used to instantiate witnesses. -/
def fA : Feature := { fid := "p1", bbox := zeroRect, geom := 1 }

/-- Demo feature: first decoded object carrying identifier p2. -/
def pOld : Feature := { fid := "p2", bbox := zeroRect, geom := 1 }

/-- Demo feature: second, distinct decoded object carrying identifier p2. -/
def pNew : Feature := { fid := "p2", bbox := zeroRect, geom := 2 }

lemma applyUpsert_frame (e : Engine) (f? : Option Feature) (e' : Engine)
    (r : ApplyResult) (h : applyUpsert e f? = some (e', r)) :
    e'.lsn = e.lsn ∧ e'.logFile = e.logFile ∧ e'.checkpointFile = e.checkpointFile := by
  cases f? with
  | none => simp [applyUpsert] at h
  | some f =>
      simp only [applyUpsert, Option.some.injEq, Prod.mk.injEq] at h
      obtain ⟨h1, h2⟩ := h
      subst h1
      exact ⟨rfl, rfl, rfl⟩

lemma applyDeleteTxn_frame (e : Engine) (f? : Option Feature) (e' : Engine)
    (r : ApplyResult) (h : applyDeleteTxn e f? = some (e', r)) :
    e'.lsn = e.lsn ∧ e'.logFile = e.logFile ∧ e'.checkpointFile = e.checkpointFile := by
  cases f? with
  | none => simp [applyDeleteTxn] at h
  | some tf =>
      cases hg : mapGet e.primary tf.fid with
      | some f =>
          simp only [applyDeleteTxn, hg, Option.some.injEq, Prod.mk.injEq] at h
          obtain ⟨h1, h2⟩ := h
          subst h1
          exact ⟨rfl, rfl, rfl⟩
      | none =>
          simp only [applyDeleteTxn, hg, Option.some.injEq, Prod.mk.injEq] at h
          obtain ⟨h1, h2⟩ := h
          subst h1
          exact ⟨rfl, rfl, rfl⟩

/-- applyTransaction never touches the LSN counter, the log file or the
checkpoint file, whatever the action. -/
lemma applyTransaction_frame (e : Engine) (t : Transaction) (e' : Engine)
    (r : ApplyResult) (h : applyTransaction e t = some (e', r)) :
    e'.lsn = e.lsn ∧ e'.logFile = e.logFile ∧ e'.checkpointFile = e.checkpointFile := by
  unfold applyTransaction at h
  split at h
  · exact applyUpsert_frame e t.Feature e' r h
  · split at h
    · exact applyDeleteTxn_frame e t.Feature e' r h
    · split at h
      · simp only [applySelectTxn, Option.some.injEq, Prod.mk.injEq] at h
        obtain ⟨h1, h2⟩ := h
        subst h1
        exact ⟨rfl, rfl, rfl⟩
      · split at h
        · simp only [applyCheckpointTxn, Option.some.injEq, Prod.mk.injEq] at h
          obtain ⟨h1, h2⟩ := h
          subst h1
          exact ⟨rfl, rfl, rfl⟩
        · simp at h

/-- saveTransaction advances the LSN counter by exactly one and appends
exactly one record, stamped with the new LSN, to the log file. -/
lemma saveTransaction_spec (e : Engine) (t : Transaction) (e' : Engine)
    (h : saveTransaction e t = some e') :
    e'.lsn = e.lsn + 1 ∧
      e'.logFile = e.logFile ++ [LogRecord.entry { t with LSN := e.lsn + 1 }] := by
  simp only [saveTransaction] at h
  cases ha : applyTransaction
      { e with lsn := e.lsn + 1,
               logFile := e.logFile ++ [LogRecord.entry { t with LSN := e.lsn + 1 }] }
      { t with LSN := e.lsn + 1 } with
  | none => rw [ha] at h; simp at h
  | some p =>
      obtain ⟨e₁, r⟩ := p
      rw [ha] at h
      simp only [Option.some.injEq] at h
      subst h
      obtain ⟨hl, hf, _⟩ := applyTransaction_frame _ _ e₁ r ha
      exact ⟨by simpa using hl, by simpa using hf⟩

lemma saveSeq_spec : ∀ (ts : List Transaction) (e e' : Engine),
    saveSeq e ts = some e' →
    e'.lsn = e.lsn + ts.length ∧ e'.logFile = e.logFile ++ stampRecs e.lsn ts
  | [], e, e', h => by
      simp only [saveSeq, Option.some.injEq] at h
      subst h; simp [stampRecs]
  | t :: ts, e, e', h => by
      unfold saveSeq at h
      cases hs : saveTransaction e t with
      | none => rw [hs] at h; simp at h
      | some e₁ =>
          rw [hs] at h
          obtain ⟨h1, h2⟩ := saveTransaction_spec e t e₁ hs
          obtain ⟨h3, h4⟩ := saveSeq_spec ts e₁ e' h
          constructor
          · rw [h3, h1]; simp [List.length_cons]; omega
          · rw [h4, h2, h1]
            simp [stampRecs]

lemma stampRecs_lsn_lt : ∀ (ts : List Transaction) (n x : Nat),
    x ∈ (stampRecs n ts).map recLSN → n < x
  | [], n, x, h => by simp [stampRecs] at h
  | t :: ts, n, x, h => by
      simp only [stampRecs, List.map_cons, List.mem_cons, recLSN] at h
      rcases h with h | h
      · omega
      · have := stampRecs_lsn_lt ts (n + 1) x (by simpa using h)
        omega

lemma stampRecs_pairwise : ∀ (ts : List Transaction) (n : Nat),
    List.Pairwise (· < ·) ((stampRecs n ts).map recLSN)
  | [], n => by simp [stampRecs]
  | t :: ts, n => by
      simp only [stampRecs, List.map_cons, recLSN, List.pairwise_cons]
      exact ⟨fun x hx => stampRecs_lsn_lt ts (n + 1) x hx,
             stampRecs_pairwise ts (n + 1)⟩

lemma mapGet_mapPut : ∀ (m : List (String × Feature)) (k : String) (v : Feature),
    mapGet (mapPut m k v) k = some v
  | [], k, v => by simp [mapPut, mapGet]
  | (k', v') :: rest, k, v => by
      by_cases hk : k' = k
      · simp [mapPut, mapGet, hk]
      · simp [mapPut, mapGet, hk, mapGet_mapPut rest k v]

lemma decodeRecords_stops : ∀ (ts : List Transaction) (junk : List LogRecord),
    decodeRecords (ts.map LogRecord.entry ++ LogRecord.malformed :: junk) = ts
  | [], junk => by simp [decodeRecords]
  | t :: ts, junk => by
      simp only [List.map_cons, List.cons_append, decodeRecords]
      exact congrArg (List.cons t) (decodeRecords_stops ts junk)

lemma applyTransaction_wf_isSome (e : Engine) (t : Transaction)
    (hwf : wellFormedMutating t) : (applyTransaction e t).isSome = true := by
  obtain ⟨ha, hf⟩ := hwf
  cases hfe : t.Feature with
  | none => rw [hfe] at hf; simp at hf
  | some f =>
      rcases ha with h | h | h
      · simp [applyTransaction, h, applyUpsert, hfe]
      · simp [applyTransaction, h, applyUpsert, hfe]
      · rw [applyTransaction, if_neg (by simp [h]), if_pos h]
        cases hg : mapGet e.primary f.fid <;>
          simp [applyDeleteTxn, hfe, hg]

lemma replayAll_wf_isSome : ∀ (ts : List Transaction) (e : Engine),
    (∀ t ∈ ts, wellFormedMutating t) → (replayAll e ts).isSome = true
  | [], e, _ => by simp [replayAll]
  | t :: ts, e, hwf => by
      have h1 := applyTransaction_wf_isSome e t (hwf t (List.mem_cons_self t ts))
      cases ha : applyTransaction e t with
      | none => rw [ha] at h1; simp at h1
      | some p =>
          unfold replayAll
          rw [ha]
          exact replayAll_wf_isSome ts p.1 (fun u hu => hwf u (List.mem_cons_of_mem t hu))

lemma runStep_frame (e : Engine) (t : Transaction) (e' : Engine)
    (h : runStep e t = some e') :
    e'.lsn = e.lsn ∧ e'.logFile = e.logFile ∧ e'.checkpointFile = e.checkpointFile := by
  unfold runStep at h
  cases ha : applyTransaction e t with
  | none => rw [ha] at h; simp at h
  | some p =>
      rw [ha] at h
      simp only [Option.some.injEq] at h
      subst h
      exact applyTransaction_frame e t p.1 p.2 ha

lemma runSeq_frame : ∀ (ts : List Transaction) (e e' : Engine),
    runSeq e ts = some e' →
    e'.lsn = e.lsn ∧ e'.logFile = e.logFile ∧ e'.checkpointFile = e.checkpointFile
  | [], e, e', h => by
      simp only [runSeq, Option.some.injEq] at h; subst h; exact ⟨rfl, rfl, rfl⟩
  | t :: ts, e, e', h => by
      unfold runSeq at h
      cases hs : runStep e t with
      | none => rw [hs] at h; simp at h
      | some e₁ =>
          rw [hs] at h
          obtain ⟨a1, a2, a3⟩ := runStep_frame e t e₁ hs
          obtain ⟨b1, b2, b3⟩ := runSeq_frame ts e₁ e' h
          exact ⟨b1.trans a1, b2.trans a2, b3.trans a3⟩

/-- C1: the claimed lockstep invariant between the primary and the spatial
index fails on the code. The insert/replace branch of applyTransaction
never removes the previous spatial entry of an already-present identifier,
so after insert(p2) followed by replace(p2) the spatial index holds two
entries for p2 (the claim says exactly one), and after a subsequent
delete(p2) — which removes only the entry of the feature currently stored
in the primary index — the primary index is empty while a full scan of the
spatial index still enumerates identifier p2: the two identifier sets
differ. -/
theorem claim_C1_lockstep_violated_by_replace :
    ((replayAll emptyEngine
        [⟨"insert", "s", 0, some pOld⟩, ⟨"replace", "s", 0, some pNew⟩]).map
        (fun e => (e.spatial.filter (fun q => q.2.fid == "p2")).length) = some 2)
    ∧ ((replayAll emptyEngine
        [⟨"insert", "s", 0, some pOld⟩, ⟨"replace", "s", 0, some pNew⟩,
         ⟨"delete", "s", 0, some pNew⟩]).map
        (fun e => (e.primary.map Prod.fst, e.spatial.map (fun q => q.2.fid)))
        = some ([], ["p2"])) := by
  decide

/-- C3: a delete transaction whose identifier is absent from the primary
index fails with the not-found error and leaves the engine — primary
index, spatial index, LSN and both file contents — exactly unchanged; in
particular no record is appended to the log. -/
theorem claim_C3_delete_absent_not_found (e : Engine) (t : Transaction)
    (f : Feature) (ha : t.Action = "delete") (hf : t.Feature = some f)
    (habsent : mapGet e.primary f.fid = none) :
    applyTransaction e t =
      some (e, ApplyResult.err
        ("can\x27t delete by id" ++ f.fid ++ ": no such enrty")) := by
  simp [applyTransaction, ha, applyDeleteTxn, hf, habsent]

/-- C3 witness: delete of the never-inserted identifier p1 on a fresh
engine. -/
theorem claim_C3_delete_absent_not_found_witness :
    ((⟨"delete", "n", 0, some fA⟩ : Transaction).Action = "delete"
      ∧ (⟨"delete", "n", 0, some fA⟩ : Transaction).Feature = some fA
      ∧ mapGet emptyEngine.primary fA.fid = none)
    ∧ applyTransaction emptyEngine ⟨"delete", "n", 0, some fA⟩ =
        some (emptyEngine, ApplyResult.err
          ("can\x27t delete by id" ++ fA.fid ++ ": no such enrty")) :=
  ⟨⟨rfl, rfl, rfl⟩,
   claim_C3_delete_absent_not_found emptyEngine ⟨"delete", "n", 0, some fA⟩ fA
     rfl rfl rfl⟩

/-- C7: a select transaction returns as payload the serialization of the
feature collection obtained by scanning the spatial index, and returns the
engine state unchanged — the same primary index, spatial index, LSN and
file contents — so in particular nothing is appended to the log. -/
theorem claim_C7_select_is_pure (e : Engine) (t : Transaction)
    (ha : t.Action = "select") :
    applyTransaction e t =
      some (e, ApplyResult.payload (spatialScan e.spatial)) := by
  simp [applyTransaction, ha, applySelectTxn]

/-- C7 witness: select on a one-feature engine returns that feature and
leaves the engine unchanged. -/
theorem claim_C7_select_is_pure_witness :
    ((⟨"select", "n", 0, none⟩ : Transaction).Action = "select")
    ∧ applyTransaction
        { primary := [("p1", fA)], spatial := [(zeroRect, fA)], lsn := 3,
          logFile := [], checkpointFile := [] }
        ⟨"select", "n", 0, none⟩ =
      some ({ primary := [("p1", fA)], spatial := [(zeroRect, fA)], lsn := 3,
              logFile := [], checkpointFile := [] },
            ApplyResult.payload (spatialScan [(zeroRect, fA)])) :=
  ⟨rfl,
   claim_C7_select_is_pure
     { primary := [("p1", fA)], spatial := [(zeroRect, fA)], lsn := 3,
       logFile := [], checkpointFile := [] }
     ⟨"select", "n", 0, none⟩ rfl⟩

/-- C8: the transaction submitted by the HTTP checkpoint handler has action
"replace" (not "checkpoint") and a nil feature, so applyTransaction
dispatches it to the insert/replace branch — never to the checkpoint
branch — and that branch panics on the nil feature dereference. -/
theorem claim_C8_checkpoint_handler_sends_replace (name : String) (lsn : Nat)
    (e : Engine) :
    (checkpointHandlerTxn name lsn).Action = "replace"
    ∧ (checkpointHandlerTxn name lsn).Action ≠ "checkpoint"
    ∧ (checkpointHandlerTxn name lsn).Feature = none
    ∧ applyTransaction e (checkpointHandlerTxn name lsn) = applyUpsert e none
    ∧ applyUpsert e none = none := by
  refine ⟨rfl, by simp [checkpointHandlerTxn], rfl, ?_, rfl⟩
  simp [applyTransaction, checkpointHandlerTxn]

/-- C9: the transaction submitted by the HTTP delete handler for identifier
id has action "replace" (not "delete") and carries a stub feature whose
only populated field is the identifier; applying it upserts the stub under
id in both indices — afterwards id is present in the primary index, so the
HTTP delete operation never removes the entry. -/
theorem claim_C9_delete_handler_upserts_stub (name : String) (lsn : Nat)
    (id : String) (e : Engine) :
    (deleteHandlerTxn name lsn id).Action = "replace"
    ∧ (deleteHandlerTxn name lsn id).Action ≠ "delete"
    ∧ (deleteHandlerTxn name lsn id).Feature = some (stubFeature id)
    ∧ applyTransaction e (deleteHandlerTxn name lsn id) =
        some ({ e with primary := mapPut e.primary id (stubFeature id),
                       spatial := spatialInsert e.spatial zeroRect (stubFeature id) },
              ApplyResult.ok)
    ∧ mapGet (mapPut e.primary id (stubFeature id)) id = some (stubFeature id) := by
  refine ⟨rfl, by simp [deleteHandlerTxn], rfl, ?_,
          mapGet_mapPut e.primary id (stubFeature id)⟩
  simp [applyTransaction, deleteHandlerTxn, applyUpsert, stubFeature]

/-- C10: the Run loop processes every submitted transaction with
applyTransaction alone, so across any sequence of submissions drained by
the loop the log file contents, the LSN counter and the checkpoint file
are all unchanged: no submitted mutation is made durable or assigned a new
LSN. -/
theorem claim_C10_run_loop_never_logs (e : Engine) (ts : List Transaction)
    (e' : Engine) (h : runSeq e ts = some e') :
    e'.logFile = e.logFile ∧ e'.lsn = e.lsn ∧ e'.checkpointFile = e.checkpointFile := by
  obtain ⟨h1, h2, h3⟩ := runSeq_frame ts e e' h
  exact ⟨h2, h1, h3⟩

/-- C10 witness: an insert followed by a select drained by the run loop
leaves the log, the LSN and the checkpoint file of a fresh engine
unchanged. -/
theorem claim_C10_run_loop_never_logs_witness :
    runSeq emptyEngine
        [⟨"insert", "n", 0, some fA⟩, ⟨"select", "n", 0, none⟩] =
      some { primary := [("p1", fA)], spatial := [(zeroRect, fA)], lsn := 0,
             logFile := [], checkpointFile := [] }
    ∧ (({ primary := [("p1", fA)], spatial := [(zeroRect, fA)], lsn := 0,
          logFile := [], checkpointFile := [] } : Engine).logFile = emptyEngine.logFile
       ∧ ({ primary := [("p1", fA)], spatial := [(zeroRect, fA)], lsn := 0,
            logFile := [], checkpointFile := [] } : Engine).lsn = emptyEngine.lsn
       ∧ ({ primary := [("p1", fA)], spatial := [(zeroRect, fA)], lsn := 0,
            logFile := [], checkpointFile := [] } : Engine).checkpointFile
           = emptyEngine.checkpointFile) :=
  ⟨by decide,
   claim_C10_run_loop_never_logs emptyEngine
     [⟨"insert", "n", 0, some fA⟩, ⟨"select", "n", 0, none⟩]
     { primary := [("p1", fA)], spatial := [(zeroRect, fA)], lsn := 0,
       logFile := [], checkpointFile := [] }
     (by decide)⟩

/-- C2: round trip through the checkpoint. Inserting feature A through
saveTransaction on a fresh engine, running check (which writes the primary
index to the checkpoint file as insert records and truncates the log), and
constructing a fresh engine against the resulting files (which loads the
checkpoint and replays the now-empty log with the same apply algorithm)
yields a state whose select returns exactly the one-feature collection
containing A. -/
theorem claim_C2_checkpoint_round_trip (A : Feature) (n : String) (l : Nat) :
    ∃ e1 e2,
      saveTransaction emptyEngine ⟨"insert", n, l, some A⟩ = some e1
      ∧ NewEngine (check e1).logFile (check e1).checkpointFile = some e2
      ∧ applyTransaction e2 ⟨"select", n, l, none⟩ =
          some (e2, ApplyResult.payload [A]) := by
  refine ⟨{ primary := [(A.fid, A)], spatial := [(A.bbox, A)], lsn := 1,
            logFile := [LogRecord.entry ⟨"insert", n, 1, some A⟩],
            checkpointFile := [] },
          { primary := [(A.fid, A)], spatial := [(A.bbox, A)], lsn := 0,
            logFile := [],
            checkpointFile := [LogRecord.entry ⟨"insert", "", 0, some A⟩] },
          ?_, ?_, ?_⟩
  · simp [saveTransaction, applyTransaction, applyUpsert, emptyEngine, mapPut,
          spatialInsert]
  · simp [NewEngine, check, loadCheckpoint, replayLog, decodeRecords, replayAll,
          applyTransaction, applyUpsert, mapPut, spatialInsert]
  · simp [applyTransaction, applySelectTxn, spatialScan]

/-- C4: an insert or replace transaction carrying feature f upserts f under
its identifier in the primary index and inserts it into the spatial index
regardless of prior presence — the insert and replace actions dispatch to
the identical branch — appends the LSN-stamped transaction to the record
log when processed through saveTransaction, and returns no payload. -/
theorem claim_C4_upsert_semantics :
    (∀ (e : Engine) (t : Transaction),
        applyTransaction e { t with Action := "insert" } =
          applyTransaction e { t with Action := "replace" })
    ∧ (∀ (e : Engine) (t : Transaction) (f : Feature),
        (t.Action = "insert" ∨ t.Action = "replace") → t.Feature = some f →
        applyTransaction e t =
          some ({ e with primary := mapPut e.primary f.fid f,
                         spatial := spatialInsert e.spatial f.bbox f },
                ApplyResult.ok)
        ∧ mapGet (mapPut e.primary f.fid f) f.fid = some f
        ∧ (f.bbox, f) ∈ spatialInsert e.spatial f.bbox f)
    ∧ (∀ (e : Engine) (t : Transaction) (f : Feature),
        (t.Action = "insert" ∨ t.Action = "replace") → t.Feature = some f →
        saveTransaction e t =
          some { e with
                   lsn := e.lsn + 1,
                   logFile := e.logFile ++ [LogRecord.entry { t with LSN := e.lsn + 1 }],
                   primary := mapPut e.primary f.fid f,
                   spatial := spatialInsert e.spatial f.bbox f }) := by
  refine ⟨?_, ?_, ?_⟩
  · intro e t
    simp [applyTransaction]
  · intro e t f h hf
    rcases h with h | h <;>
      exact ⟨by simp [applyTransaction, h, applyUpsert, hf],
             mapGet_mapPut e.primary f.fid f,
             by simp [spatialInsert]⟩
  · intro e t f h hf
    rcases h with h | h <;>
      simp [saveTransaction, applyTransaction, applyUpsert, h, hf]

/-- C4 witness: inserting the demo feature into a fresh engine through
saveTransaction stores it in both indices and appends the stamped record
to the log. -/
theorem claim_C4_upsert_semantics_witness :
    ((⟨"insert", "n", 9, some fA⟩ : Transaction).Action = "insert"
       ∨ (⟨"insert", "n", 9, some fA⟩ : Transaction).Action = "replace")
    ∧ saveTransaction emptyEngine ⟨"insert", "n", 9, some fA⟩ =
        some { emptyEngine with
                 lsn := emptyEngine.lsn + 1,
                 logFile := emptyEngine.logFile ++
                   [LogRecord.entry
                     { (⟨"insert", "n", 9, some fA⟩ : Transaction) with
                         LSN := emptyEngine.lsn + 1 }],
                 primary := mapPut emptyEngine.primary fA.fid fA,
                 spatial := spatialInsert emptyEngine.spatial fA.bbox fA } :=
  ⟨Or.inl rfl,
   claim_C4_upsert_semantics.2.2 emptyEngine ⟨"insert", "n", 9, some fA⟩ fA
     (Or.inl rfl) rfl⟩

/-- C5: saveTransaction advances the LSN exactly once per processed
mutating transaction and stamps the new LSN into the record it appends;
over any sequence processed through saveTransaction the LSNs of the newly
appended records are strictly increasing; and applying a select transaction
never changes the LSN. -/
theorem claim_C5_lsn_discipline :
    (∀ (e : Engine) (t : Transaction) (e' : Engine),
        (t.Action = "insert" ∨ t.Action = "replace" ∨ t.Action = "delete") →
        saveTransaction e t = some e' →
        e'.lsn = e.lsn + 1
        ∧ e'.logFile = e.logFile ++ [LogRecord.entry { t with LSN := e.lsn + 1 }])
    ∧ (∀ (e : Engine) (ts : List Transaction) (e' : Engine),
        saveSeq e ts = some e' →
        e'.lsn = e.lsn + ts.length
        ∧ List.Pairwise (· < ·) ((e'.logFile.drop e.logFile.length).map recLSN))
    ∧ (∀ (e : Engine) (t : Transaction) (e' : Engine) (r : ApplyResult),
        t.Action = "select" →
        applyTransaction e t = some (e', r) → e'.lsn = e.lsn) := by
  refine ⟨?_, ?_, ?_⟩
  · intro e t e' _ h
    exact saveTransaction_spec e t e' h
  · intro e ts e' h
    obtain ⟨h1, h2⟩ := saveSeq_spec ts e e' h
    refine ⟨h1, ?_⟩
    rw [h2, List.drop_left]
    exact stampRecs_pairwise ts e.lsn
  · intro e t e' r _ h
    exact (applyTransaction_frame e t e' r h).1

/-- C5 witness: a concrete insert through saveTransaction advances the LSN
from 0 to 1 and appends the record stamped with LSN 1. -/
theorem claim_C5_lsn_discipline_witness :
    ((⟨"insert", "n", 5, some fA⟩ : Transaction).Action = "insert"
       ∨ (⟨"insert", "n", 5, some fA⟩ : Transaction).Action = "replace"
       ∨ (⟨"insert", "n", 5, some fA⟩ : Transaction).Action = "delete")
    ∧ saveTransaction emptyEngine ⟨"insert", "n", 5, some fA⟩ =
        some { primary := [("p1", fA)], spatial := [(zeroRect, fA)], lsn := 1,
               logFile := [LogRecord.entry ⟨"insert", "n", 1, some fA⟩],
               checkpointFile := [] }
    ∧ (({ primary := [("p1", fA)], spatial := [(zeroRect, fA)], lsn := 1,
          logFile := [LogRecord.entry ⟨"insert", "n", 1, some fA⟩],
          checkpointFile := [] } : Engine).lsn = emptyEngine.lsn + 1
        ∧ ({ primary := [("p1", fA)], spatial := [(zeroRect, fA)], lsn := 1,
             logFile := [LogRecord.entry ⟨"insert", "n", 1, some fA⟩],
             checkpointFile := [] } : Engine).logFile =
            emptyEngine.logFile ++ [LogRecord.entry ⟨"insert", "n", 1, some fA⟩]) :=
  ⟨Or.inl rfl, by decide,
   claim_C5_lsn_discipline.1 emptyEngine ⟨"insert", "n", 5, some fA⟩
     { primary := [("p1", fA)], spatial := [(zeroRect, fA)], lsn := 1,
       logFile := [LogRecord.entry ⟨"insert", "n", 1, some fA⟩],
       checkpointFile := [] }
     (Or.inl rfl) (by decide)⟩

/-- C6: replaying a log made of N well-formed records followed by one
malformed record and arbitrary further bytes decodes exactly the first N
transactions in append order, replays exactly them, and terminates without
crashing (the recovery result exists). -/
theorem claim_C6_replay_stops_at_malformed (e : Engine) (ts : List Transaction)
    (junk : List LogRecord) (hwf : ∀ t ∈ ts, wellFormedMutating t) :
    decodeRecords (ts.map LogRecord.entry ++ LogRecord.malformed :: junk) = ts
    ∧ replayLog
        { e with logFile := ts.map LogRecord.entry ++ LogRecord.malformed :: junk }
        = replayAll
            { e with logFile := ts.map LogRecord.entry ++ LogRecord.malformed :: junk }
            ts
    ∧ (replayAll
        { e with logFile := ts.map LogRecord.entry ++ LogRecord.malformed :: junk }
        ts).isSome = true := by
  refine ⟨decodeRecords_stops ts junk, ?_, replayAll_wf_isSome ts _ hwf⟩
  unfold replayLog
  rw [show ({ e with
        logFile := ts.map LogRecord.entry ++ LogRecord.malformed :: junk } :
        Engine).logFile = ts.map LogRecord.entry ++ LogRecord.malformed :: junk
      from rfl,
    decodeRecords_stops ts junk]

/-- C6 witness: one valid insert record, then a malformed record, then a
further valid record: exactly the first record is decoded and replayed. -/
theorem claim_C6_replay_stops_at_malformed_witness :
    (∀ t ∈ [(⟨"insert", "n", 0, some fA⟩ : Transaction)], wellFormedMutating t)
    ∧ (decodeRecords
        ([(⟨"insert", "n", 0, some fA⟩ : Transaction)].map LogRecord.entry ++
          LogRecord.malformed :: [LogRecord.entry ⟨"insert", "n", 0, some pNew⟩])
        = [(⟨"insert", "n", 0, some fA⟩ : Transaction)]
       ∧ replayLog
           { emptyEngine with
               logFile :=
                 [(⟨"insert", "n", 0, some fA⟩ : Transaction)].map LogRecord.entry ++
                   LogRecord.malformed ::
                     [LogRecord.entry ⟨"insert", "n", 0, some pNew⟩] }
           = replayAll
               { emptyEngine with
                   logFile :=
                     [(⟨"insert", "n", 0, some fA⟩ : Transaction)].map
                         LogRecord.entry ++
                       LogRecord.malformed ::
                         [LogRecord.entry ⟨"insert", "n", 0, some pNew⟩] }
               [(⟨"insert", "n", 0, some fA⟩ : Transaction)]
       ∧ (replayAll
           { emptyEngine with
               logFile :=
                 [(⟨"insert", "n", 0, some fA⟩ : Transaction)].map LogRecord.entry ++
                   LogRecord.malformed ::
                     [LogRecord.entry ⟨"insert", "n", 0, some pNew⟩] }
           [(⟨"insert", "n", 0, some fA⟩ : Transaction)]).isSome = true) :=
  ⟨by decide,
   claim_C6_replay_stops_at_malformed emptyEngine
     [(⟨"insert", "n", 0, some fA⟩ : Transaction)]
     [LogRecord.entry ⟨"insert", "n", 0, some pNew⟩]
     (by decide)⟩

end GeoStore
